import Mathlib

/-!
Shallow embedding of the core of `ai-commit-guard` (index.js): ignore-pattern
engine, sensitive-content redactor, staged-change collector, cache store,
verdict decisioning and timeout routing.  Strings are modelled as `List Char`
(JS strings are sequences of code units; every input of interest here is
ASCII).  Each definition cites the source function it embeds.
-/

namespace AIGuard

/-- JS strings, modelled as lists of characters. -/
abbrev Str := List Char

/-- The single-quote character (code 39), written via `Char.ofNat`. -/
def sq : Char := Char.ofNat 39

/-- The double-quote character (code 34). -/
def dq : Char := Char.ofNat 34

/-- The backquote character (code 96). -/
def bq : Char := Char.ofNat 96

/-- ASCII lower-casing of one character, modelling `String.prototype.toLowerCase`
on the ASCII inputs this program handles. -/
def lowerChar (c : Char) : Char :=
  if 65 ≤ c.toNat && c.toNat ≤ 90 then Char.ofNat (c.toNat + 32) else c

/-- `s.toLowerCase()` on ASCII strings. -/
def lowerStr (s : Str) : Str := s.map lowerChar

/-- JS `haystack.includes(needle)`: contiguous-substring containment. -/
def containsSub (needle : Str) : Str → Bool
  | [] => needle.isEmpty
  | c :: t => needle.isPrefixOf (c :: t) || containsSub needle t

/-- `path.basename`: the part of the path after the last separator.
(Faithful for the slash-separated, non-trailing-slash paths produced by
`git diff --cached --name-only`, which is how the program calls it.) -/
def basename (p : Str) : Str :=
  (p.reverse.takeWhile (fun c => c ≠ '/')).reverse

/-- `path.extname`: from the last `.` of the basename to the end, where a
leading dot of the basename does not start an extension (`.env` has no
extension, `.env.production` has extension `.production`). -/
def extname (p : Str) : Str :=
  match basename p with
  | [] => []
  | _ :: rest =>
    if rest.contains '.' then
      '.' :: (rest.reverse.takeWhile (fun c => c ≠ '.')).reverse
    else []

/-- `SENSITIVE_KEYWORDS` from index.js. -/
def SENSITIVE_KEYWORDS : List Str :=
  (["password", "secret", "token", "key", "private", "credential"]).map String.toList

/-- `CONFIG.EXCLUDE_PATTERNS` from index.js. -/
def EXCLUDE_PATTERNS : List Str :=
  (["dist/*", "build/*", "out/*", "target/*", "bin/*", "obj/*",
    "node_modules/*", "vendor/*", ".venv/*", "venv/*", "__pycache__/*",
    ".git/*", ".svn/*", ".hg/*",
    ".vscode/*", ".idea/*", "*.swp", "*.swo", "*~",
    ".DS_Store", "Thumbs.db", "desktop.ini",
    "*.min.js", "*.min.css", "*.bundle.*", "*-lock.json", "*.lock"]).map String.toList

/-- `DEFAULT_IGNORE_PATTERNS` from index.js. -/
def DEFAULT_IGNORE_PATTERNS : List Str :=
  (["*.env*", "*.key", "*.pem", "*.p12", "*.pfx", "*.keystore", "*.jks",
    "*password*", "*secret*", "*token*", "*api-key*", "*private*", "*credential*",
    "*.log", "*.tmp", "*.temp", "*.cache", "*.pid",
    "package-lock.json", "yarn.lock", "composer.lock", "Gemfile.lock", "Pipfile.lock",
    "*.min.js", "*.min.css", "*.bundle.*", "*-lock.*",
    ".ai-guard-cache/*",
    ".ai-guard-result"]).map String.toList
  ++ EXCLUDE_PATTERNS

/-- `CONFIG.BINARY_EXTENSIONS` from index.js. -/
def BINARY_EXTENSIONS : List Str :=
  ([".exe", ".dll", ".so", ".dylib", ".bin", ".dat", ".db", ".sqlite",
    ".jpg", ".jpeg", ".png", ".gif", ".bmp", ".tiff", ".webp", ".ico",
    ".mp3", ".wav", ".flac", ".aac", ".ogg", ".mp4", ".avi", ".mkv", ".mov",
    ".pdf", ".doc", ".docx", ".xls", ".xlsx", ".ppt", ".pptx",
    ".zip", ".rar", ".tar", ".gz", ".7z", ".bz2",
    ".ttf", ".otf", ".woff", ".woff2", ".eot"]).map String.toList

/-- Fuel-bounded matcher for the regexes `shouldIgnoreFile` builds from a
pattern: `new RegExp('^' + pattern.replace(/X/g, '.Y') + '$')` where `X` is the
star and `.Y` the star preceded by a dot.  In the compiled regex a pattern star
becomes "any sequence", a pattern dot matches any single character, and every
other character of the default pattern set is a regex literal (the defaults
contain no further metacharacters).  Anchored at both ends. -/
def patMatchF : Nat → Str → Str → Bool
  | _, [], [] => true
  | _, [], _ :: _ => false
  | 0, _ :: _, _ => false
  | fuel + 1, p :: ps, s =>
    if p == '*' then
      patMatchF fuel ps s ||
        (match s with
         | [] => false
         | _ :: s2 => patMatchF fuel (p :: ps) s2)
    else
      match s with
      | [] => false
      | c :: s2 => (p == '.' || p == c) && patMatchF fuel ps s2

/-- Anchored match of one glob-like exclusion pattern against a string. -/
def patMatch (p s : Str) : Bool := patMatchF (p.length + s.length + 1) p s

/-- `shouldIgnoreFile(filePath, patterns)` from index.js: first the
unconditional sensitive-keyword check on the lower-cased path and basename,
then the pattern list (wildcard patterns via the anchored regex, plain
patterns via substring containment on path or basename). -/
def shouldIgnoreFile (filePath : Str) (patterns : List Str) : Bool :=
  let fileName := basename filePath
  let lowerPath := lowerStr filePath
  let lowerName := lowerStr fileName
  (SENSITIVE_KEYWORDS.any fun keyword =>
    containsSub keyword lowerPath || containsSub keyword lowerName) ||
  (patterns.any fun pattern =>
    if pattern.contains '*' then
      patMatch pattern filePath || patMatch pattern fileName
    else
      containsSub pattern filePath || containsSub pattern fileName)

/-- `getStagedFiles()` from index.js, with the `git` interactions made
explicit: `staged` is the list from `git diff --cached --name-only`,
`numstatBinary f` says whether `git diff --cached --numstat f` starts with
the binary marker.  Returns the surviving files and the logged ignored count
`allFiles.length - nonBinaryFiles.length`. -/
def getStagedFiles (staged : List Str) (patterns : List Str)
    (numstatBinary : Str → Bool) : List Str × Nat :=
  let allFiles := staged.filter fun file =>
    !file.isEmpty && !BINARY_EXTENSIONS.contains (lowerStr (extname file))
  let filteredFiles := allFiles.filter fun file => !shouldIgnoreFile file patterns
  let nonBinaryFiles := filteredFiles.filter fun file => !numstatBinary file
  (nonBinaryFiles, allFiles.length - nonBinaryFiles.length)

/-! ### Content redactor (`filterSensitiveContent`) -/

/-- Regex class `[a-zA-Z0-9]`. -/
def isAlnumJS (c : Char) : Bool :=
  (97 ≤ c.toNat && c.toNat ≤ 122) || (65 ≤ c.toNat && c.toNat ≤ 90) ||
    (48 ≤ c.toNat && c.toNat ≤ 57)

/-- The quote class of the redaction regexes: single quote, double quote,
backquote. -/
def isQuote (c : Char) : Bool := c == sq || c == dq || c == bq

/-- Regex class `\s` on the ASCII whitespace this program meets. -/
def isWsJS (c : Char) : Bool :=
  c == ' ' || c == '\t' || c == '\n' || c == '\r' ||
    c == Char.ofNat 11 || c == Char.ofNat 12

/-- Greedy maximal `[a-zA-Z0-9]` run at the front: `(run, rest)`. -/
def alnumRun : Str → Str × Str
  | [] => ([], [])
  | c :: cs =>
    if isAlnumJS c then
      let r := alnumRun cs
      (c :: r.1, r.2)
    else ([], c :: cs)

/-- Greedy maximal run of characters outside the quote class (the regex
class that excludes the three quotes): `(run, rest)`. -/
def nonQuoteRun : Str → Str × Str
  | [] => ([], [])
  | c :: cs =>
    if isQuote c then ([], c :: cs)
    else
      let r := nonQuoteRun cs
      (c :: r.1, r.2)

/-- Greedy maximal `\s*` run at the front: `(run, rest)`. -/
def wsRun : Str → Str × Str
  | [] => ([], [])
  | c :: cs =>
    if isWsJS c then
      let r := wsRun cs
      (c :: r.1, r.2)
    else ([], c :: cs)

/-- Case-insensitive literal match of `wordLower` (given lower-case) at the
front of `l`; on success returns the matched original characters and the
remainder. -/
def stripCI : Str → Str → Option (Str × Str)
  | [], l => some ([], l)
  | _ :: _, [] => none
  | k :: ks, c :: cs =>
    if lowerChar c == k then
      (stripCI ks cs).map fun m => (c :: m.1, m.2)
    else none

/-- One global-replace scan, JS style: at each position try the matcher; on a
match emit its replacement and continue after the match (replacements are not
rescanned within a pass); otherwise copy one character.  `fuel` bounds the
recursion and is instantiated with the string length (every match consumes at
least one character). -/
def scanWith (m : Str → Option (Str × Str)) : Nat → Str → Str
  | _, [] => []
  | 0, l => l
  | fuel + 1, c :: cs =>
    match m (c :: cs) with
    | some er => er.1 ++ scanWith m fuel er.2
    | none => c :: scanWith m fuel cs

/-- `[API_KEY_HIDDEN]` -/
def apiKeyHidden : Str := "[API_KEY_HIDDEN]".toList

/-- `[SECRET_HIDDEN]` -/
def secretHidden : Str := "[SECRET_HIDDEN]".toList

/-- Matcher of the first substitution: a quote, `sk-`, at least 32
alphanumerics, a quote; replaced keeping both quotes around the API-key
placeholder.  The `-` after the greedy run cannot be a quote, so the regex
match is exactly: maximal alphanumeric run of length at least 32 followed by
a quote. -/
def tryA (l : Str) : Option (Str × Str) :=
  match l with
  | q1 :: c1 :: c2 :: c3 :: rest =>
    if isQuote q1 && c1 == 's' && c2 == 'k' && c3 == '-' then
      let r := alnumRun rest
      match r.2 with
      | q2 :: rest3 =>
        if 32 ≤ r.1.length && isQuote q2 then
          some (q1 :: apiKeyHidden ++ [q2], rest3)
        else none
      | [] => none
    else none
  | _ => none

/-- Whether any sensitive keyword occurs in the (lower-cased) matched text. -/
def hasKeyword (matched : Str) : Bool :=
  SENSITIVE_KEYWORDS.any fun keyword => containsSub keyword (lowerStr matched)

/-- Matcher of the second substitution: a quote, at least 32 alphanumerics, a
quote; the callback replaces with the secret placeholder between the original
quotes only when the matched text contains a sensitive keyword, otherwise the
match is kept verbatim — in both cases scanning resumes after the match. -/
def tryB (l : Str) : Option (Str × Str) :=
  match l with
  | q1 :: rest =>
    if isQuote q1 then
      let r := alnumRun rest
      match r.2 with
      | q2 :: rest3 =>
        if 32 ≤ r.1.length && isQuote q2 then
          if hasKeyword (q1 :: r.1 ++ [q2]) then
            some (q1 :: secretHidden ++ [q2], rest3)
          else some (q1 :: r.1 ++ [q2], rest3)
        else none
      | [] => none
    else none
  | [] => none

/-- Matcher of the keyword-assignment substitutions (`password`, `token`,
`secret|key`, all case-insensitive): keyword, optional whitespace, `:` or `=`,
optional whitespace, a quote, at least one non-quote character, a quote.
`mkEmit` builds the replacement from the originally matched keyword text. -/
def tryAssign (kw : Str) (mkEmit : Str → Str) (l : Str) : Option (Str × Str) :=
  match stripCI kw l with
  | none => none
  | some m =>
    let r2 := (wsRun m.2).2
    match r2 with
    | sep :: r3 =>
      if sep == ':' || sep == '=' then
        let r4 := (wsRun r3).2
        match r4 with
        | q1 :: r5 =>
          if isQuote q1 then
            let v := nonQuoteRun r5
            match v.2 with
            | q2 :: r7 =>
              if !v.1.isEmpty && isQuote q2 then some (mkEmit m.1, r7)
              else none
            | [] => none
          else none
        | [] => none
      else none
    | [] => none

/-- Third substitution: `password`-assignments become the fixed text
`password: "[PASSWORD_HIDDEN]"`. -/
def tryC (l : Str) : Option (Str × Str) :=
  tryAssign ("password".toList) (fun _ => "password: ".toList ++ dq :: "[PASSWORD_HIDDEN]".toList ++ [dq]) l

/-- Fourth substitution: `token`-assignments become the fixed text
`token: "[TOKEN_HIDDEN]"`. -/
def tryD (l : Str) : Option (Str × Str) :=
  tryAssign ("token".toList) (fun _ => "token: ".toList ++ dq :: "[TOKEN_HIDDEN]".toList ++ [dq]) l

/-- Fifth substitution: `secret`- or `key`-assignments keep the matched
keyword (the regex group) and replace the value, `$1: "[SECRET_HIDDEN]"`.
The alternation tries `secret` before `key`; the two can never match at the
same position. -/
def tryE (l : Str) : Option (Str × Str) :=
  match tryAssign ("secret".toList) (fun m => m ++ ": ".toList ++ dq :: secretHidden ++ [dq]) l with
  | some res => some res
  | none => tryAssign ("key".toList) (fun m => m ++ ": ".toList ++ dq :: secretHidden ++ [dq]) l

/-- First `.replace` pass of `filterSensitiveContent`. -/
def redactA (s : Str) : Str := scanWith tryA s.length s

/-- Second `.replace` pass. -/
def redactB (s : Str) : Str := scanWith tryB s.length s

/-- Third `.replace` pass. -/
def redactC (s : Str) : Str := scanWith tryC s.length s

/-- Fourth `.replace` pass. -/
def redactD (s : Str) : Str := scanWith tryD s.length s

/-- Fifth `.replace` pass. -/
def redactE (s : Str) : Str := scanWith tryE s.length s

/-- `filterSensitiveContent(content)` from index.js: the five chained global
replaces, in source order. -/
def filterSensitiveContent (content : Str) : Str :=
  redactE (redactD (redactC (redactB (redactA content))))

/-! ### Cache store (`getCacheKey`, `getCache`)

`getCacheKey` calls Node's `crypto.createHash('sha256')`; SHA-256 is modelled
here in full (FIPS 180-4) over byte lists, with 32-bit words as `Nat` reduced
modulo `2 ^ 32`.  Strings enter the hash as their byte encodings. -/

/-- Reduce to a 32-bit word. -/
def w32 (n : Nat) : Nat := n % 4294967296

/-- 32-bit right-rotation (the two shifted parts occupy disjoint bit ranges). -/
def rotr (n x : Nat) : Nat := w32 (x / 2 ^ n + x * 2 ^ (32 - n))

/-- Logical right shift. -/
def shr (n x : Nat) : Nat := x / 2 ^ n

/-- 32-bit complement of a word. -/
def compl32 (x : Nat) : Nat := 4294967295 ^^^ x

/-- SHA-256 `Ch`. -/
def ch (e f g : Nat) : Nat := (e &&& f) ^^^ (compl32 e &&& g)

/-- SHA-256 `Maj`. -/
def maj (a b c : Nat) : Nat := (a &&& b) ^^^ (a &&& c) ^^^ (b &&& c)

/-- SHA-256 `Σ0`. -/
def bigSigma0 (x : Nat) : Nat := rotr 2 x ^^^ rotr 13 x ^^^ rotr 22 x

/-- SHA-256 `Σ1`. -/
def bigSigma1 (x : Nat) : Nat := rotr 6 x ^^^ rotr 11 x ^^^ rotr 25 x

/-- SHA-256 `σ0`. -/
def smallSigma0 (x : Nat) : Nat := rotr 7 x ^^^ rotr 18 x ^^^ shr 3 x

/-- SHA-256 `σ1`. -/
def smallSigma1 (x : Nat) : Nat := rotr 17 x ^^^ rotr 19 x ^^^ shr 10 x

/-- SHA-256 round constants (FIPS 180-4 §4.2.2, written in decimal). -/
def sha256K : List Nat :=
  [1116352408, 1899447441, 3049323471, 3921009573, 961987163,
   1508970993, 2453635748, 2870763221, 3624381080, 310598401,
   607225278, 1426881987, 1925078388, 2162078206, 2614888103,
   3248222580, 3835390401, 4022224774, 264347078, 604807628,
   770255983, 1249150122, 1555081692, 1996064986, 2554220882,
   2821834349, 2952996808, 3210313671, 3336571891, 3584528711,
   113926993, 338241895, 666307205, 773529912, 1294757372,
   1396182291, 1695183700, 1986661051, 2177026350, 2456956037,
   2730485921, 2820302411, 3259730800, 3345764771, 3516065817,
   3600352804, 4094571909, 275423344, 430227734, 506948616,
   659060556, 883997877, 958139571, 1322822218, 1537002063,
   1747873779, 1955562222, 2024104815, 2227730452, 2361852424,
   2428436474, 2756734187, 3204031479, 3329325298]

/-- The eight working variables / hash words. -/
structure Hash8 where
  a : Nat
  b : Nat
  c : Nat
  d : Nat
  e : Nat
  f : Nat
  g : Nat
  h : Nat

/-- Initial SHA-256 hash value (FIPS 180-4 §5.3.3, written in decimal). -/
def sha256H0 : Hash8 :=
  ⟨1779033703, 3144134277, 1013904242, 2773480762,
   1359893119, 2600822924, 528734635, 1541459225⟩

/-- Big-endian 32-bit word from four bytes of the block. -/
def wordAt (block : List Nat) (i : Nat) : Nat :=
  block.getD (4 * i) 0 * 16777216 + block.getD (4 * i + 1) 0 * 65536 +
    block.getD (4 * i + 2) 0 * 256 + block.getD (4 * i + 3) 0

/-- The 64-entry message schedule of one 64-byte block. -/
def schedule (block : List Nat) : List Nat :=
  let w16 := (List.range 16).map (wordAt block)
  (List.range 48).foldl
    (fun w _ =>
      let n := w.length
      w ++ [w32 (smallSigma1 (w.getD (n - 2) 0) + w.getD (n - 7) 0 +
                 smallSigma0 (w.getD (n - 15) 0) + w.getD (n - 16) 0)])
    w16

/-- One SHA-256 round. -/
def round1 (s : Hash8) (kw : Nat × Nat) : Hash8 :=
  let t1 := w32 (s.h + bigSigma1 s.e + ch s.e s.f s.g + kw.1 + kw.2)
  let t2 := w32 (bigSigma0 s.a + maj s.a s.b s.c)
  ⟨w32 (t1 + t2), s.a, s.b, s.c, w32 (s.d + t1), s.e, s.f, s.g⟩

/-- Compress one 64-byte block into the running hash. -/
def compress (H : Hash8) (block : List Nat) : Hash8 :=
  let s := (sha256K.zip (schedule block)).foldl round1 H
  ⟨w32 (H.a + s.a), w32 (H.b + s.b), w32 (H.c + s.c), w32 (H.d + s.d),
   w32 (H.e + s.e), w32 (H.f + s.f), w32 (H.g + s.g), w32 (H.h + s.h)⟩

/-- Big-endian 64-bit length field. -/
def lenBytes (n : Nat) : List Nat :=
  (List.range 8).map fun i => n / 2 ^ (8 * (7 - i)) % 256

/-- SHA-256 padding: `0x80`, zeros to 56 mod 64, then the bit length. -/
def padMessage (m : List Nat) : List Nat :=
  m ++ 128 :: List.replicate ((119 - m.length % 64) % 64) 0 ++ lenBytes (8 * m.length)

/-- The SHA-256 state after absorbing the whole padded message. -/
def sha256words (m : List Nat) : Hash8 :=
  let p := padMessage m
  (List.range (p.length / 64)).foldl (fun H i => compress H ((p.drop (64 * i)).take 64)) sha256H0

/-- Lower-case hexadecimal digit. -/
def hexDigit (d : Nat) : Char :=
  if d < 10 then Char.ofNat (48 + d) else Char.ofNat (87 + d)

/-- Eight lower-case hex characters of one 32-bit word, most significant
first. -/
def hexWord (n : Nat) : Str :=
  [hexDigit (n / 268435456 % 16), hexDigit (n / 16777216 % 16),
   hexDigit (n / 1048576 % 16), hexDigit (n / 65536 % 16),
   hexDigit (n / 4096 % 16), hexDigit (n / 256 % 16),
   hexDigit (n / 16 % 16), hexDigit (n % 16)]

/-- `crypto.createHash('sha256').update(m).digest('hex')`. -/
def sha256hex (m : List Nat) : Str :=
  let s := sha256words m
  hexWord s.a ++ hexWord s.b ++ hexWord s.c ++ hexWord s.d ++
    hexWord s.e ++ hexWord s.f ++ hexWord s.g ++ hexWord s.h

/-- Byte encoding of an ASCII string (the cache-key inputs — diff text,
provider name, model name — are hashed as their byte encodings). -/
def asciiBytes (s : String) : List Nat := s.toList.map Char.toNat

/-- `getCacheKey(changes)` from index.js: first 16 hex characters of the
sha256 of `changes + this.provider + this.model`. -/
def getCacheKey (changes provider model : List Nat) : Str :=
  (sha256hex (changes ++ provider ++ model)).take 16

/-- Lower-case hexadecimal character. -/
def isLowerHexChar (c : Char) : Bool := ("0123456789abcdef".toList).contains c

/-- `CONFIG.CACHE_DURATION`: 24 hours in milliseconds. -/
def CACHE_DURATION : Int := 86400000

/-- Observable state of one cache file when `getCache` reads it:
missing; `corrupt` for every state in which reading or `JSON.parse` throws or
the parsed object lacks a numeric `timestamp` (the `try`/`catch` and the
`NaN` comparison both yield the miss branch); or a well-formed entry with its
stored verdict text and creation time. -/
inductive CacheFileState where
  | missing
  | corrupt
  | entry (result : String) (timestamp : Int)

/-- `getCache(key)` from index.js, over the state of the cache file for that
key and the current clock: returns the stored verdict only for a well-formed
entry with `now - timestamp < CACHE_DURATION`; every other state yields
`null`. -/
def getCache (st : CacheFileState) (now : Int) : Option String :=
  match st with
  | .missing => none
  | .corrupt => none
  | .entry result timestamp =>
    if now - timestamp < CACHE_DURATION then some result else none

/-! ### Staged-change collector (`getChanges`) -/

/-- The `--- file ---` header line of one per-file entry. -/
def fileHeader (file : Str) : Str := "--- ".toList ++ file ++ " ---\n".toList

/-- `(n/1024).toFixed(1)`: `n / 1024` is exact in binary floating point, and
`toFixed(1)` rounds to one decimal, ties away from zero, so the tenths digit
is `(10 * n + 512) / 1024`. -/
def kbStr (n : Nat) : Str :=
  let tenths := (10 * n + 512) / 1024
  (toString (tenths / 10)).toList ++ (".".toList) ++ (toString (tenths % 10)).toList

/-- The oversize placeholder note `[File too large for AI review - <n>KB]`. -/
def tooLargeNote (len : Nat) : Str :=
  "[File too large for AI review - ".toList ++ kbStr len ++ "KB]".toList

/-- One file's contribution inside `getChanges`: `diffResult` is the outcome
of `git diff --cached <file>` (`none` when the subprocess throws, which the
code turns into an empty entry after a warning). -/
def getChangesEntry (maxFileSize : Nat) (file : Str) (diffResult : Option Str) : Str :=
  match diffResult with
  | none => []
  | some diff =>
    if diff.length > maxFileSize then fileHeader file ++ tooLargeNote diff.length
    else fileHeader file ++ filterSensitiveContent diff

/-- `getChanges(files)` from index.js: map each file to its entry, drop the
empty entries of failed retrievals, join with blank lines. -/
def getChanges (maxFileSize : Nat) (files : List (Str × Option Str)) : Str :=
  List.intercalate ("\n\n".toList)
    ((files.map fun fd => getChangesEntry maxFileSize fd.1 fd.2).filter
      fun change => !change.isEmpty)

/-! ### Decision engine and timeout routing -/

/-- `ReviewOutcome`: the run's final classification. -/
inductive Outcome where
  | Approved
  | Rejected
  | TimedOut
  | Errored
deriving DecidableEq, Repr

/-- JS `' '.trim()` (whitespace stripped from both ends). -/
def trimStr (s : Str) : Str :=
  ((s.dropWhile isWsJS).reverse.dropWhile isWsJS).reverse

/-- `result.replace(/X/i, '')` for the anchored case-insensitive verdict
token: remove the first six characters when the lower-cased result starts
with `reject`, otherwise leave the text unchanged. -/
def stripRejectLead (result : Str) : Str :=
  if ("reject".toList).isPrefixOf (lowerStr result) then result.drop 6 else result

/-- The verdict branch of `run()` (index.js): Rejected with exit status 1 and
the stripped-and-trimmed message iff `result.toLowerCase().startsWith('reject')`;
every other response is Approved with exit status 0. -/
def runVerdict (result : Str) : Outcome × Nat × Str :=
  if ("reject".toList).isPrefixOf (lowerStr result) then
    (.Rejected, 1, trimStr (stripRejectLead result))
  else (.Approved, 0, result)

/-- Modelled from the spec: the spec's words for the verdict rule — "Rejected
iff the response, case-insensitively trimmed, begins with `reject`" — i.e. the
check is made on the trimmed response.  Kept separate for comparison with the
source's `runVerdict`, which does not trim. -/
def specRejectedTrimmed (result : Str) : Bool :=
  ("reject".toList).isPrefixOf (lowerStr (trimStr result))

/-- Resolution status of the backend promise relative to the deadline of
`callWithTimeout`: it resolved with text, it rejected with an error message,
or it had done neither when the timer fired. -/
inductive CallResult where
  | resolved (text : Str)
  | failed (msg : Str)
  | pending

/-- `callWithTimeout(apiCall, timeoutMs)` from index.js: exactly one of
resolve / propagated failure / timeout rejection with the message
`AI review timeout after <timeoutMs/1000> seconds`. -/
def callWithTimeout (call : CallResult) (timeoutMs : Nat) : Except Str Str :=
  match call with
  | .resolved t => .ok t
  | .failed m => .error m
  | .pending =>
    .error ("AI review timeout after ".toList ++ (toString (timeoutMs / 1000)).toList
      ++ " seconds".toList)

/-- The backend phase of `run()` (index.js) after a cache miss, given the
call's resolution status: a caught error whose message contains `timeout`
records the TIMEOUT marker and exits 0; any other error is rethrown into the
outer catch, records the ERROR marker and exits 0; a response is classified
by the verdict branch. -/
def runBackendPhase (call : CallResult) (timeoutMs : Nat) : Outcome × Nat :=
  match callWithTimeout call timeoutMs with
  | .error e =>
    if containsSub ("timeout".toList) e then (.TimedOut, 0) else (.Errored, 0)
  | .ok result =>
    let v := runVerdict result
    (v.1, v.2.1)

/-- Concrete input of the C3 counterexample: a quoted 32-character
alphanumeric run containing `password`, then — sharing the middle quote — a
32-character alphanumeric run containing `token`, then a final quote. -/
def xC3 : Str :=
  sq :: ("password".toList ++ List.replicate 24 'a') ++
    sq :: ("token".toList ++ List.replicate 27 'b') ++ [sq]

/-- The Scenario-B diff: `apiKey: "sk-` + token + `"`. -/
def scenarioBdiff (t : Str) : Str :=
  "apiKey: ".toList ++ dq :: 's' :: 'k' :: '-' :: (t ++ [dq])

/-- The Scenario-A staged list. -/
def scenarioAList : List Str :=
  ["src/a.ts".toList, ".env.production".toList, "logo.png".toList]

/-- Modelled from the spec: the placeholder note Scenario-style wording of
§4.3 — `"file too large, size=<n>KB"` — kept separate for comparison with the
source's `tooLargeNote`. -/
def specSizeNote : Str := "file too large, size=".toList

end AIGuard

namespace AIGuard

/-! ### Helper lemmas -/

theorem containsSub_nil (s : Str) : containsSub [] s = true := by
  cases s <;> simp [containsSub]

theorem isPrefixOf_self_append (u v : Str) : u.isPrefixOf (u ++ v) = true := by
  rw [List.isPrefixOf_iff_prefix]
  exact u.prefix_append v

theorem containsSub_sound (k u v : Str) : containsSub k (u ++ k ++ v) = true := by
  induction u with
  | nil =>
    cases k with
    | nil => simpa using containsSub_nil v
    | cons a as => simp [containsSub, isPrefixOf_self_append]
  | cons c u ih =>
    have harr : (c :: u) ++ k ++ v = c :: (u ++ k ++ v) := by simp
    rw [harr, containsSub, ih, Bool.or_true]

theorem isPrefixOf_length_le (u v : Str) (h : u.isPrefixOf v = true) :
    u.length ≤ v.length := by
  rw [List.isPrefixOf_iff_prefix] at h
  exact h.length_le

theorem containsSub_eq_false_of_longer (n h : Str) (hl : h.length < n.length) :
    containsSub n h = false := by
  induction h with
  | nil =>
    cases n with
    | nil => simp at hl
    | cons a as => simp [containsSub]
  | cons c t ih =>
    rw [containsSub, Bool.or_eq_false_iff]
    refine ⟨?_, ih (Nat.lt_of_succ_lt hl)⟩
    rw [Bool.eq_false_iff]
    intro hp
    exact absurd (isPrefixOf_length_le _ _ hp) (Nat.not_le.mpr hl)

theorem shouldIgnoreFile_of_any_keyword (p : Str) (patterns : List Str)
    (h : (SENSITIVE_KEYWORDS.any fun keyword =>
      containsSub keyword (lowerStr p) || containsSub keyword (lowerStr (basename p))) = true) :
    shouldIgnoreFile p patterns = true := by
  simp only [shouldIgnoreFile]
  rw [h, Bool.true_or]

/-! ### Claim theorems -/

/-- C1: a path whose lower-cased path or basename contains one of the
sensitive keywords is excluded by `shouldIgnoreFile` for every pattern list:
the keyword check precedes the pattern check and short-circuits to `true`, so
no pattern configuration can undo it. -/
theorem shouldIgnoreFile_sensitive_keyword_always_excluded
    (filePath : Str) (patterns : List Str)
    (h : ∃ k ∈ SENSITIVE_KEYWORDS,
      (∃ u v, lowerStr filePath = u ++ k ++ v) ∨
      (∃ u v, lowerStr (basename filePath) = u ++ k ++ v)) :
    shouldIgnoreFile filePath patterns = true := by
  apply shouldIgnoreFile_of_any_keyword
  obtain ⟨k, hk, hcase⟩ := h
  rw [List.any_eq_true]
  refine ⟨k, hk, ?_⟩
  rcases hcase with ⟨u, v, huv⟩ | ⟨u, v, huv⟩
  · rw [huv, containsSub_sound, Bool.true_or]
  · rw [huv, containsSub_sound, Bool.or_true]

/-- Witness for C1 at `config/password.js` with the empty pattern list. -/
theorem shouldIgnoreFile_sensitive_keyword_always_excluded_witness :
    shouldIgnoreFile ("config/password.js".toList) [] = true :=
  shouldIgnoreFile_sensitive_keyword_always_excluded ("config/password.js".toList) []
    ⟨"password".toList, by decide,
      Or.inl ⟨"config/".toList, ".js".toList, by decide⟩⟩

/-- C9: the keyword exclusion is substring-based — `src/keyboard.js` and
`Monkey.ts` contain `key` only inside larger words, yet `shouldIgnoreFile`
excludes them under every pattern list, and neither can ever appear among the
files `getStagedFiles` returns for review. -/
theorem shouldIgnoreFile_substring_keyword_examples (patterns : List Str)
    (staged : List Str) (numstatBinary : Str → Bool) :
    shouldIgnoreFile ("src/keyboard.js".toList) patterns = true ∧
    shouldIgnoreFile ("Monkey.ts".toList) patterns = true ∧
    (getStagedFiles staged patterns numstatBinary).1.contains ("src/keyboard.js".toList) = false ∧
    (getStagedFiles staged patterns numstatBinary).1.contains ("Monkey.ts".toList) = false := by
  have h1 : shouldIgnoreFile ("src/keyboard.js".toList) patterns = true :=
    shouldIgnoreFile_of_any_keyword _ _ (by decide)
  have h2 : shouldIgnoreFile ("Monkey.ts".toList) patterns = true :=
    shouldIgnoreFile_of_any_keyword _ _ (by decide)
  have notmem : ∀ p : Str, shouldIgnoreFile p patterns = true →
      (getStagedFiles staged patterns numstatBinary).1.contains p = false := by
    intro p hp
    rw [Bool.eq_false_iff]
    intro hc
    have hm : p ∈ (getStagedFiles staged patterns numstatBinary).1 :=
      List.mem_of_elem_eq_true hc
    simp only [getStagedFiles, List.mem_filter] at hm
    rw [hp] at hm
    simp at hm
  exact ⟨h1, h2, notmem _ h1, notmem _ h2⟩

/-- C10: `getCache` is total over the possible cache-file states: a stored
verdict comes back exactly for a well-formed entry younger than the retention
window; a missing, unreadable or malformed file — and a stale entry — yield
`none` (the `try`/`catch` swallows every read or parse failure). -/
theorem getCache_total_freshness (st : CacheFileState) (now : Int) (r : String) :
    (getCache st now = some r ↔ ∃ ts, st = .entry r ts ∧ now - ts < CACHE_DURATION) ∧
    getCache .missing now = none ∧ getCache .corrupt now = none := by
  refine ⟨?_, rfl, rfl⟩
  cases st with
  | missing => simp [getCache]
  | corrupt => simp [getCache]
  | entry res ts =>
    by_cases h : now - ts < CACHE_DURATION
    · simp only [getCache, if_pos h, Option.some_inj]
      constructor
      · intro he
        exact ⟨ts, by rw [he], h⟩
      · rintro ⟨ts1, he, _⟩
        injection he with h1 h2
    · simp only [getCache, if_neg h]
      constructor
      · intro he
        exact absurd he (by simp)
      · rintro ⟨ts1, he, hlt⟩
        injection he with h1 h2
        subst h2
        exact absurd hlt h

/-- C6: a backend call still unresolved when the deadline fires makes
`callWithTimeout` reject with the timeout message; `run` catches it, the
message contains `timeout`, so the outcome is TimedOut and the process exits
with status 0, letting the commit proceed. -/
theorem timeout_yields_timedout_exit_zero (timeoutMs : Nat) :
    callWithTimeout .pending timeoutMs =
      .error ("AI review timeout after ".toList ++ (toString (timeoutMs / 1000)).toList
        ++ " seconds".toList) ∧
    runBackendPhase .pending timeoutMs = (.TimedOut, 0) := by
  refine ⟨rfl, ?_⟩
  simp only [runBackendPhase, callWithTimeout]
  have hsplit : "AI review timeout after ".toList =
      "AI review ".toList ++ "timeout".toList ++ " after ".toList := by decide
  have hc : containsSub ("timeout".toList)
      ("AI review timeout after ".toList ++ (toString (timeoutMs / 1000)).toList
        ++ " seconds".toList) = true := by
    rw [hsplit]
    have := containsSub_sound ("timeout".toList) ("AI review ".toList)
      (" after ".toList ++ ((toString (timeoutMs / 1000)).toList ++ " seconds".toList))
    simpa [List.append_assoc] using this
  rw [hc]
  rfl

/-- C2 counterexample: a response whose trimmed, lower-cased text begins with
`reject` but which carries one leading space.  The spec's reading (check on
the trimmed response) classifies it Rejected; the code checks the untrimmed
response and classifies it Approved with exit status 0. -/
theorem verdict_trimmed_reading_counterexample :
    specRejectedTrimmed (" REJECT\n- Issue: hardcoded secret".toList) = true ∧
    (runVerdict (" REJECT\n- Issue: hardcoded secret".toList)).1 = Outcome.Approved ∧
    (runVerdict (" REJECT\n- Issue: hardcoded secret".toList)).2.1 = 0 := by
  decide

/-- C2 amended: the verdict is Rejected, with exit status 1, iff the
lower-cased response begins — without any trimming — with `reject`; every
other response is Approved with exit status 0; on rejection the message is
the response with the six leading token characters removed and surrounding
whitespace trimmed (Scenario D included). -/
theorem verdict_reject_leading_untrimmed (result : Str) :
    ((runVerdict result).1 =
      if ("reject".toList) <+: lowerStr result then Outcome.Rejected else Outcome.Approved) ∧
    ((runVerdict result).2.1 =
      if ("reject".toList) <+: lowerStr result then 1 else 0) ∧
    ((runVerdict result).1 = Outcome.Rejected →
      (runVerdict result).2.2 = trimStr (result.drop 6)) ∧
    runVerdict ("REJECT\n- Issue: hardcoded secret".toList) =
      (Outcome.Rejected, 1, "- Issue: hardcoded secret".toList) := by
  by_cases h : ("reject".toList) <+: lowerStr result
  · have hb : ("reject".toList).isPrefixOf (lowerStr result) = true :=
      List.isPrefixOf_iff_prefix.mpr h
    refine ⟨?_, ?_, ?_, by decide⟩
    · simp only [runVerdict]
      rw [if_pos hb, if_pos h]
    · simp only [runVerdict]
      rw [if_pos hb, if_pos h]
    · intro _
      simp only [runVerdict, stripRejectLead]
      rw [if_pos hb, if_pos hb]
  · have hb : ¬(("reject".toList).isPrefixOf (lowerStr result) = true) := by
      intro hc
      exact h (List.isPrefixOf_iff_prefix.mp hc)
    refine ⟨?_, ?_, ?_, by decide⟩
    · simp only [runVerdict]
      rw [if_neg hb, if_neg h]
    · simp only [runVerdict]
      rw [if_neg hb, if_neg h]
    · intro hcontra
      simp only [runVerdict] at hcontra
      rw [if_neg hb] at hcontra
      exact Outcome.noConfusion hcontra

/-- Witness for the C2 amended theorem at Scenario D's response. -/
theorem verdict_reject_leading_untrimmed_witness :
    (runVerdict ("REJECT\n- Issue: hardcoded secret".toList)).2.2 =
      trimStr (("REJECT\n- Issue: hardcoded secret".toList).drop 6) :=
  (verdict_reject_leading_untrimmed ("REJECT\n- Issue: hardcoded secret".toList)).2.2.1
    (by decide)

set_option maxRecDepth 40000 in
/-- C3 counterexample: `filterSensitiveContent` is not idempotent.  In `xC3`
the first pass replaces the quoted password-bearing run, consuming the quote
it shares with the token-bearing run; the second application then sees the
token-bearing run between quotes and rewrites it, changing the text again. -/
theorem filterSensitiveContent_not_idempotent :
    (filterSensitiveContent (filterSensitiveContent xC3) == filterSensitiveContent xC3) = false := by
  decide

set_option maxRecDepth 40000 in
/-- C3 amended: re-running the redactor can change already-redacted text (a
replacement's quotes can pair with later text into a new match), but the
placeholder tokens themselves are never rewritten: each placeholder, in the
quoted or assignment form the redactor emits, is a fixed point. -/
theorem filterSensitiveContent_placeholders_fixed :
    filterSensitiveContent (sq :: secretHidden ++ [sq]) = sq :: secretHidden ++ [sq] ∧
    filterSensitiveContent (dq :: secretHidden ++ [dq]) = dq :: secretHidden ++ [dq] ∧
    filterSensitiveContent (sq :: apiKeyHidden ++ [sq]) = sq :: apiKeyHidden ++ [sq] ∧
    filterSensitiveContent ("password: ".toList ++ dq :: "[PASSWORD_HIDDEN]".toList ++ [dq]) =
      "password: ".toList ++ dq :: "[PASSWORD_HIDDEN]".toList ++ [dq] ∧
    filterSensitiveContent ("token: ".toList ++ dq :: "[TOKEN_HIDDEN]".toList ++ [dq]) =
      "token: ".toList ++ dq :: "[TOKEN_HIDDEN]".toList ++ [dq] ∧
    filterSensitiveContent ("key: ".toList ++ dq :: secretHidden ++ [dq]) =
      "key: ".toList ++ dq :: secretHidden ++ [dq] ∧
    filterSensitiveContent ("secret: ".toList ++ dq :: secretHidden ++ [dq]) =
      "secret: ".toList ++ dq :: secretHidden ++ [dq] := by
  decide

set_option maxRecDepth 40000 in
/-- C7 counterexample: the oversize note's actual text is
`[File too large for AI review - <n>KB]`; the note quoted by the claim,
`file too large, size=<n>KB`, occurs nowhere in the entry (not even
case-insensitively). -/
theorem getChanges_note_text_counterexample :
    containsSub specSizeNote
      (lowerStr (getChangesEntry 1000 ("a.ts".toList) (some (List.replicate 1001 'x')))) = false ∧
    getChangesEntry 1000 ("a.ts".toList) (some (List.replicate 1001 'x')) =
      fileHeader ("a.ts".toList) ++ tooLargeNote 1001 := by
  decide

/-- C7 amended: a staged file whose diff exceeds the size ceiling contributes
its header followed by the placeholder note
`[File too large for AI review - <n>KB]` instead of the literal diff; the
entry is non-empty, so it survives the empty-entry filter and still appears
among the assembled (reviewed) changes. -/
theorem getChanges_oversize_placeholder (maxFileSize : Nat) (file diff : Str)
    (h : maxFileSize < diff.length) :
    getChangesEntry maxFileSize file (some diff) = fileHeader file ++ tooLargeNote diff.length ∧
    (getChangesEntry maxFileSize file (some diff)).isEmpty = false ∧
    (fileHeader file).isPrefixOf (getChangesEntry maxFileSize file (some diff)) = true := by
  have he : getChangesEntry maxFileSize file (some diff) =
      fileHeader file ++ tooLargeNote diff.length := by
    simp only [getChangesEntry, gt_iff_lt, if_pos h]
  refine ⟨he, ?_, ?_⟩
  · rw [he]
    simp [fileHeader]
  · rw [he]
    exact isPrefixOf_self_append _ _

/-- Witness for the C7 amended theorem: a 1001-byte diff against the minimum
1000-byte ceiling. -/
theorem getChanges_oversize_placeholder_witness :
    1000 < (List.replicate 1001 'x').length ∧
    (getChangesEntry 1000 ("a.ts".toList) (some (List.replicate 1001 'x')) =
        fileHeader ("a.ts".toList) ++ tooLargeNote (List.replicate 1001 'x').length ∧
      (getChangesEntry 1000 ("a.ts".toList) (some (List.replicate 1001 'x'))).isEmpty = false ∧
      (fileHeader ("a.ts".toList)).isPrefixOf
        (getChangesEntry 1000 ("a.ts".toList) (some (List.replicate 1001 'x'))) = true) :=
  ⟨by simp only [List.length_replicate]; decide,
    getChanges_oversize_placeholder 1000 ("a.ts".toList) (List.replicate 1001 'x')
      (by simp only [List.length_replicate]; decide)⟩

theorem scanWith_nil (m : Str → Option (Str × Str)) (fuel : Nat) :
    scanWith m fuel [] = [] := by
  cases fuel <;> rfl

theorem scanWith_skip (m : Str → Option (Str × Str)) (fuel : Nat) (c : Char) (cs : Str)
    (hm : m (c :: cs) = none) :
    scanWith m (fuel + 1) (c :: cs) = c :: scanWith m fuel cs := by
  simp [scanWith, hm]

theorem scanWith_hit (m : Str → Option (Str × Str)) (fuel : Nat) (c : Char) (cs e r : Str)
    (hm : m (c :: cs) = some (e, r)) :
    scanWith m (fuel + 1) (c :: cs) = e ++ scanWith m fuel r := by
  simp [scanWith, hm]

theorem tryA_nonquote (c : Char) (cs : Str) (hq : isQuote c = false) :
    tryA (c :: cs) = none := by
  match cs with
  | [] => rfl
  | [_] => rfl
  | [_, _] => rfl
  | c1 :: c2 :: c3 :: rest => simp [tryA, hq]

theorem alnumRun_all_append (t : Str) (d : Char) (r : Str)
    (ht : ∀ c ∈ t, isAlnumJS c = true) (hd : isAlnumJS d = false) :
    alnumRun (t ++ d :: r) = (t, d :: r) := by
  induction t with
  | nil => simp [alnumRun, hd]
  | cons c cs ih =>
    have hc : isAlnumJS c = true := ht c (List.mem_cons_self c cs)
    have ihs := ih fun x hx => ht x (List.mem_cons_of_mem c hx)
    simp [alnumRun, hc, ihs]

theorem scanA_prefix (p : Str) (hp : ∀ c ∈ p, isQuote c = false) (fuel : Nat) (s : Str) :
    scanWith tryA (p.length + fuel) (p ++ s) = p ++ scanWith tryA fuel s := by
  induction p with
  | nil => simp
  | cons c cs ih =>
    have harith : (c :: cs).length + fuel = (cs.length + fuel) + 1 := by
      simp [List.length_cons, Nat.succ_add, Nat.add_right_comm]
    rw [harith, List.cons_append,
      scanWith_skip _ _ _ _ (tryA_nonquote c (cs ++ s) (hp c (List.mem_cons_self c cs))),
      ih fun x hx => hp x (List.mem_cons_of_mem c hx)]
    rfl

theorem tryA_hit_run (t : Str) (ht : ∀ c ∈ t, isAlnumJS c = true) (hlen : 32 ≤ t.length) :
    tryA (dq :: 's' :: 'k' :: '-' :: (t ++ [dq])) = some (dq :: apiKeyHidden ++ [dq], []) := by
  have hrun : alnumRun (t ++ [dq]) = (t, [dq]) :=
    alnumRun_all_append t dq [] ht (by decide)
  simp [tryA, hrun, hlen, show isQuote dq = true from rfl]

theorem redactA_scenarioB (t : Str) (hlen : t.length = 40)
    (halnum : ∀ c ∈ t, isAlnumJS c = true) :
    redactA (scenarioBdiff t) = "apiKey: ".toList ++ dq :: apiKeyHidden ++ [dq] := by
  have hlen2 : (scenarioBdiff t).length = ("apiKey: ".toList).length + 45 := by
    simp [scenarioBdiff, hlen]
  rw [redactA, hlen2, scenarioBdiff,
    scanA_prefix ("apiKey: ".toList) (by decide) 45
      (dq :: 's' :: 'k' :: '-' :: (t ++ [dq])),
    show (45 : Nat) = 44 + 1 from rfl,
    scanWith_hit _ _ _ _ _ _ (tryA_hit_run t halnum (by rw [hlen]; decide)),
    scanWith_nil]
  rfl

set_option maxRecDepth 40000 in
/-- C8 counterexample: on Scenario A's staged set the logged ignored count is
not 2 — binary-by-extension files are dropped before `allFiles` is counted,
so `logo.png` never enters the baseline. -/
theorem getStagedFiles_scenarioA_count_counterexample :
    ((getStagedFiles scenarioAList DEFAULT_IGNORE_PATTERNS fun _ => false).2 == 2) = false := by
  decide

set_option maxRecDepth 40000 in
/-- C8 amended: on Scenario A's staged set (with textual numstat for the
surviving files) the collector excludes `.env.production` (pattern `*.env*`)
and `logo.png` (binary extension), returns only `src/a.ts` for review, and
reports an ignored count of 1: the count baseline `allFiles` is formed after
the binary-extension drop, so only the pattern exclusion is counted. -/
theorem getStagedFiles_scenarioA :
    getStagedFiles scenarioAList DEFAULT_IGNORE_PATTERNS (fun _ => false) =
      ([("src/a.ts".toList)], 1) := by
  decide


set_option maxRecDepth 40000 in
/-- C4 counterexample: for Scenario B's own diff the redacted output contains
no `[API_KEY_HIDDEN]`: the `key`-assignment rule runs after the API-key rule
and rewrites the quoted value of `apiKey: "…"` — which by then is the
just-inserted placeholder — to `[SECRET_HIDDEN]`. -/
theorem scenarioB_no_api_key_placeholder :
    containsSub apiKeyHidden
      (filterSensitiveContent (scenarioBdiff (List.replicate 40 'a'))) = false ∧
    filterSensitiveContent (scenarioBdiff (List.replicate 40 'a')) =
      "apiKey: ".toList ++ dq :: secretHidden ++ [dq] := by
  decide

set_option maxRecDepth 40000 in
/-- C4 amended: for every 40-character alphanumeric token `t`, redacting
`apiKey: "sk-t"` yields exactly `apiKey: "[SECRET_HIDDEN]"`: the token and its
`sk-` prefix are gone without trace (the output is shorter than the token), but
the placeholder that survives is `[SECRET_HIDDEN]`, not `[API_KEY_HIDDEN]`. -/
theorem scenarioB_secret_hidden (t : Str) (hlen : t.length = 40)
    (halnum : ∀ c ∈ t, isAlnumJS c = true) :
    filterSensitiveContent (scenarioBdiff t) =
      "apiKey: ".toList ++ dq :: secretHidden ++ [dq] ∧
    containsSub t (filterSensitiveContent (scenarioBdiff t)) = false := by
  have hmain : filterSensitiveContent (scenarioBdiff t) =
      "apiKey: ".toList ++ dq :: secretHidden ++ [dq] := by
    rw [filterSensitiveContent, redactA_scenarioB t hlen halnum]
    decide
  refine ⟨hmain, ?_⟩
  rw [hmain]
  apply containsSub_eq_false_of_longer
  rw [hlen]
  decide

set_option maxRecDepth 40000 in
/-- Witness for the C4 amended theorem at the all-`a` token. -/
theorem scenarioB_secret_hidden_witness :
    filterSensitiveContent (scenarioBdiff (List.replicate 40 'a')) =
      "apiKey: ".toList ++ dq :: secretHidden ++ [dq] ∧
    containsSub (List.replicate 40 'a')
      (filterSensitiveContent (scenarioBdiff (List.replicate 40 'a'))) = false :=
  scenarioB_secret_hidden (List.replicate 40 'a') (by decide) (by decide)

theorem hexWord_length (n : Nat) : (hexWord n).length = 8 := rfl

theorem sha256hex_length (m : List Nat) : (sha256hex m).length = 64 := rfl

theorem getCacheKey_len (c p m : List Nat) : (getCacheKey c p m).length = 16 := by
  rw [getCacheKey, List.length_take, sha256hex_length]
  decide

theorem hexDigit_lower_hex (x : Nat) : isLowerHexChar (hexDigit (x % 16)) = true := by
  have h : x % 16 < 16 := Nat.mod_lt x (by decide)
  generalize hd : x % 16 = d at h ⊢
  interval_cases d <;> decide

theorem hexWord_mem_lower_hex (c : Char) (n : Nat) (hc : c ∈ hexWord n) :
    isLowerHexChar c = true := by
  simp only [hexWord, List.mem_cons, List.not_mem_nil, or_false] at hc
  rcases hc with h | h | h | h | h | h | h | h <;> subst h <;>
    exact hexDigit_lower_hex _

theorem sha256hex_mem_lower_hex (c : Char) (m : List Nat) (hc : c ∈ sha256hex m) :
    isLowerHexChar c = true := by
  simp only [sha256hex, List.mem_append, or_assoc] at hc
  rcases hc with h | h | h | h | h | h | h | h <;>
    exact hexWord_mem_lower_hex c _ h

/-- C5: for a fixed provider and model, `getCacheKey` is the first 16 hex
characters of the sha256 of the concatenated inputs — a pure function, hence
deterministic: equal inputs give the identical value — and its result always
has exactly 16 characters, all lower-case hexadecimal. -/
theorem getCacheKey_deterministic_hex16 (changes provider model : List Nat) :
    getCacheKey changes provider model =
      (sha256hex (changes ++ provider ++ model)).take 16 ∧
    (getCacheKey changes provider model).length = 16 ∧
    ∀ c ∈ getCacheKey changes provider model, isLowerHexChar c = true := by
  refine ⟨rfl, getCacheKey_len _ _ _, ?_⟩
  intro c hc
  exact sha256hex_mem_lower_hex c _ (List.mem_of_mem_take hc)

set_option maxRecDepth 40000 in
/-- Witness for C5 at Scenario C's inputs (`diff-X`, `openai`, `gpt-4`): the
key has 16 characters and its first character `e` is lower-case hex. -/
theorem getCacheKey_deterministic_hex16_witness :
    (getCacheKey (asciiBytes "diff-X") (asciiBytes "openai") (asciiBytes "gpt-4")).length = 16 ∧
    isLowerHexChar 'e' = true :=
  ⟨(getCacheKey_deterministic_hex16 (asciiBytes "diff-X") (asciiBytes "openai")
      (asciiBytes "gpt-4")).2.1,
    (getCacheKey_deterministic_hex16 (asciiBytes "diff-X") (asciiBytes "openai")
      (asciiBytes "gpt-4")).2.2 'e' (by decide)⟩

end AIGuard
